import Mathlib

set_option maxRecDepth 8000

/-!
Shallow embedding of the FastMessageMuteSystem repository
(src/spam_detector.py, src/napcat_client.py, src/config.py).

Python floats (timestamps from `time.time()`, the mute multiplier) are
modelled as rationals, Python ints as integers, dicts as
insertion-ordered association lists, and the asyncio client as an
explicit state machine whose transitions are the synchronous code
fragments between suspension points.
-/

namespace FastMute

/-- Python-dict-style association list lookup: value of the first
matching key, `none` when the key is absent. -/
def alookup {κ α : Type} [DecidableEq κ] : List (κ × α) → κ → Option α
  | [], _ => none
  | (k', v) :: rest, k => if k' = k then some v else alookup rest k

/-- Python-dict-style association list write: update the value in place
when the key exists, otherwise append the new entry at the end
(Python dicts preserve insertion order). -/
def aset {κ α : Type} [DecidableEq κ] : List (κ × α) → κ → α → List (κ × α)
  | [], k, v => [(k, v)]
  | (k', v') :: rest, k, v =>
      if k' = k then (k, v) :: rest else (k', v') :: aset rest k v

/-- Removal of a key: `dict.pop(k, None)` / `set.discard(k)`. -/
def aremove {κ α : Type} [DecidableEq κ] (m : List (κ × α)) (k : κ) : List (κ × α) :=
  m.filter (fun p => decide (p.1 ≠ k))

/-- Model of `MuteConfig` from src/config.py lines 33-40: sliding-window and
escalation parameters.  `mute_multiplier` is a Python float, modelled
as a rational. -/
structure MuteConfig where
  time_window : ℤ
  message_threshold : ℤ
  mute_duration : ℤ
  mute_multiplier : ℚ
  max_mute_duration : ℤ
deriving DecidableEq

/-- The defaults of `MuteConfig` (config.py lines 36-40). -/
def defaultMuteConfig : MuteConfig :=
  { time_window := 10
    message_threshold := 5
    mute_duration := 60
    mute_multiplier := 2
    max_mute_duration := 3600 }

/-- Model of `UserMessageRecord` from src/spam_detector.py lines 19-31. -/
structure UserMessageRecord where
  timestamps : List ℚ
  violation_count : ℕ
  last_mute_time : ℚ
  last_mute_duration : ℤ
  is_muted : Bool
deriving DecidableEq

/-- The dataclass defaults of `UserMessageRecord`: the never-seen state. -/
def emptyRecord : UserMessageRecord :=
  { timestamps := []
    violation_count := 0
    last_mute_time := 0
    last_mute_duration := 0
    is_muted := false }

/-- Append to a `deque(maxlen=100)`: the new element goes on the right
and the oldest elements are evicted on the left so that at most 100
remain (spam_detector.py lines 23 and 105). -/
def dequeAppend (xs : List ℚ) (x : ℚ) : List ℚ :=
  let ys := xs ++ [x]
  ys.drop (ys.length - 100)

/-- Python `int()` applied to a float, modelled on rationals:
truncation toward zero. -/
def pyTrunc (q : ℚ) : ℤ :=
  if 0 ≤ q then ⌊q⌋ else ⌈q⌉

/-- Model of `SpamDetector._calculate_mute_duration` (spam_detector.py lines
135-143): `min(int(base * multiplier ** (violation_count - 1)), max)`.
The exponent is the Python int `violation_count - 1`, which may be
negative, hence `zpow`. -/
def calculate_mute_duration (cfg : MuteConfig) (r : UserMessageRecord) : ℤ :=
  let duration : ℤ :=
    pyTrunc ((cfg.mute_duration : ℚ) * cfg.mute_multiplier ^ ((r.violation_count : ℤ) - 1))
  min duration cfg.max_mute_duration

/-- The mute duration as a function of the incremented violation count
only; `calculate_mute_duration` reads nothing else from the record. -/
def calcD (cfg : MuteConfig) (v : ℕ) : ℤ :=
  min (pyTrunc ((cfg.mute_duration : ℚ) * cfg.mute_multiplier ^ ((v : ℤ) - 1)))
    cfg.max_mute_duration

/-- The per-record body of `SpamDetector.record_message`
(spam_detector.py lines 94-133), after the per-group enable gate: one
message arrival at time `now` against one user's record.  Returns the
updated record and the optional triggered mute duration. -/
def stepRecord (cfg : MuteConfig) (r : UserMessageRecord) (now : ℚ) :
    UserMessageRecord × Option ℤ :=
  if r.is_muted = true ∧ now < r.last_mute_time + (r.last_mute_duration : ℚ) then
    (r, none)
  else
    let r0 : UserMessageRecord := { r with is_muted := false }
    let ts : List ℚ := dequeAppend r0.timestamps now
    let windowStart : ℚ := now - (cfg.time_window : ℚ)
    let recentCount : ℕ := (ts.filter (fun t => decide (windowStart < t))).length
    if cfg.message_threshold ≤ (recentCount : ℤ) then
      let r1 : UserMessageRecord :=
        { r0 with violation_count := r0.violation_count + 1, is_muted := true }
      let d : ℤ := calculate_mute_duration cfg r1
      ({ r1 with last_mute_time := now, last_mute_duration := d, timestamps := [] },
        some d)
    else
      ({ r0 with timestamps := ts }, none)

/-- A sequence of arrivals against one record: fold of `stepRecord`,
collecting each call's return value. -/
def runRecord (cfg : MuteConfig) (r : UserMessageRecord) :
    List ℚ → UserMessageRecord × List (Option ℤ)
  | [] => (r, [])
  | t :: ts =>
      let s := stepRecord cfg r t
      let rest := runRecord cfg s.1 ts
      (rest.1, s.2 :: rest.2)

/-- The in-memory state of `SpamDetector` (spam_detector.py lines
37-46): the two-level `defaultdict` of user records and the per-group
enable flags.  The persisted file is external; `set_enabled` below
takes the outcome of the write as a parameter. -/
structure SpamDetector where
  config : MuteConfig
  records : List (ℤ × List (ℤ × UserMessageRecord))
  enabled : List (ℤ × Bool)
deriving DecidableEq

/-- Model of `SpamDetector.is_enabled` (lines 70-72): `self._enabled.get(group_id, False)`. -/
def SpamDetector.is_enabled (D : SpamDetector) (g : ℤ) : Bool :=
  (alookup D.enabled g).getD false

/-- Model of `SpamDetector._save_state` (lines 60-68): the file write either
succeeds or raises; the parameter stands for that external outcome. -/
def save_state (saveOk : Bool) : Except String Unit :=
  if saveOk then Except.ok () else Except.error "failed to write state file"

/-- Model of `SpamDetector.set_enabled` (lines 74-78): writes the in-memory
flag, then calls `_save_state`, whose `try/except` swallows any
persistence error (lines 62-68), so both outcomes return normally. -/
def SpamDetector.set_enabled (D : SpamDetector) (g : ℤ) (b : Bool) (saveOk : Bool) :
    SpamDetector :=
  let D1 : SpamDetector := { D with enabled := aset D.enabled g b }
  match save_state saveOk with
  | Except.ok _ => D1
  | Except.error _ => D1

/-- The `defaultdict` access `self._records[group_id][user_id]`
(lines 40-42, 95, 153): reading a missing key inserts an empty inner
dict / a default `UserMessageRecord`.  Returns the record and the
detector after the implicit insertions. -/
def SpamDetector.recordsGet (D : SpamDetector) (g u : ℤ) :
    UserMessageRecord × SpamDetector :=
  let inner : List (ℤ × UserMessageRecord) := (alookup D.records g).getD []
  let r : UserMessageRecord := (alookup inner u).getD emptyRecord
  (r, { D with records := aset D.records g (aset inner u r) })

/-- Store an updated record back under `(g, u)` (in Python the record
object is mutated in place). -/
def SpamDetector.putRecord (D : SpamDetector) (g u : ℤ) (r : UserMessageRecord) :
    SpamDetector :=
  { D with records := aset D.records g (aset ((alookup D.records g).getD []) u r) }

/-- The record currently stored for `(g, u)`, defaulting to the
never-seen record. -/
def SpamDetector.userRec (D : SpamDetector) (g u : ℤ) : UserMessageRecord :=
  (alookup ((alookup D.records g).getD []) u).getD emptyRecord

/-- Model of `SpamDetector.record_message` (lines 80-133): gated on the
per-group flag (lines 91-92); while disabled it is a no-op returning
`None` and touching no record. -/
def SpamDetector.record_message (D : SpamDetector) (g u : ℤ) (now : ℚ) :
    SpamDetector × Option ℤ :=
  if D.is_enabled g = true then
    let a := D.recordsGet g u
    let s := stepRecord D.config a.1 now
    (a.2.putRecord g u s.1, s.2)
  else
    (D, none)

/-- Model of `SpamDetector.reset_user` (lines 145-149). -/
def SpamDetector.reset_user (D : SpamDetector) (g u : ℤ) : SpamDetector :=
  match alookup D.records g with
  | none => D
  | some inner =>
      if (alookup inner u).isSome then
        { D with records := aset D.records g (aremove inner u) }
      else D

/-- The dict returned by `SpamDetector.get_user_stats` (lines 154-159). -/
structure UserStats where
  violation_count : ℕ
  recent_messages : ℕ
  last_mute_time : ℚ
  last_mute_duration : ℤ
deriving DecidableEq

/-- Model of `SpamDetector.get_user_stats` (lines 151-159): reads
`self._records[group_id][user_id]`, a `defaultdict` access that
inserts a fresh default record when the key is missing. -/
def SpamDetector.get_user_stats (D : SpamDetector) (g u : ℤ) :
    UserStats × SpamDetector :=
  let a := D.recordsGet g u
  ({ violation_count := a.1.violation_count
     recent_messages := a.1.timestamps.length
     last_mute_time := a.1.last_mute_time
     last_mute_duration := a.1.last_mute_duration }, a.2)

/-- One group's entry in the dict returned by `SpamDetector.get_status`
(lines 167-171). -/
structure GroupStatus where
  enabled : Bool
  tracked_users : ℕ
  total_violations : ℕ
deriving DecidableEq

/-- Model of `SpamDetector.get_status` (lines 161-172): one entry per group in
`self._enabled`, reading `self._records.get(group_id, {})` without
inserting. -/
def SpamDetector.get_status (D : SpamDetector) : List (ℤ × GroupStatus) :=
  D.enabled.map (fun p =>
    (p.1,
      { enabled := p.2
        tracked_users := ((alookup D.records p.1).getD []).length
        total_violations :=
          (((alookup D.records p.1).getD []).map (fun q => q.2.violation_count)).sum }))

/-- A sequence of `record_message` calls for one `(g, u)` pair. -/
def runDetector (D : SpamDetector) (g u : ℤ) :
    List ℚ → SpamDetector × List (Option ℤ)
  | [] => (D, [])
  | t :: ts =>
      let s := D.record_message g u t
      let rest := runDetector s.1 g u ts
      (rest.1, s.2 :: rest.2)

/-- Model of `BanTask` (napcat_client.py lines 17-25); the asyncio `Future`
result slot is represented by the worker outcome below. -/
structure BanTask where
  group_id : ℤ
  user_id : ℤ
  duration : ℤ
  created_at : ℚ
deriving DecidableEq

/-- Constant `NapcatClient.BAN_TASK_TIMEOUT` (line 35): staleness bound in seconds. -/
def BAN_TASK_TIMEOUT : ℚ := 30

/-- Constant `NapcatClient.BAN_QUEUE_INTERVAL` (line 33): pacing interval in seconds. -/
def BAN_QUEUE_INTERVAL : ℚ := 4 / 5

/-- The fields of the synthetic reply dict a deduplicated
`set_group_ban` call returns (line 286). -/
structure ApiResponse where
  status : String
  retcode : ℤ
deriving DecidableEq

/-- What `set_group_ban` does before suspending on its future: either
the dedup hit returning the synthetic success, or the enqueue. -/
inductive SubmitResult
  | synthetic (resp : ApiResponse)
  | enqueued
deriving DecidableEq

/-- The ban-dispatch state inside `NapcatClient`: the dedup set
`_pending_bans` (line 51), the FIFO `_ban_queue` (line 48), and the
log of `set_group_ban` requests actually sent to the bridge through
`_call_api_internal` (lines 164-168). -/
structure NapcatClient where
  pending_bans : List (ℤ × ℤ)
  ban_queue : List BanTask
  api_calls : List (String × ℤ × ℤ × ℤ)
deriving DecidableEq

/-- Model of `NapcatClient.set_group_ban` (lines 269-302), up to the suspension
on the task future: if `(group_id, user_id)` is already pending,
return the synthetic success `{"status": "ok", "retcode": 0, ...}`
without enqueuing; otherwise register the key and enqueue a timestamped
`BanTask`. -/
def NapcatClient.set_group_ban (c : NapcatClient) (g u d : ℤ) (now : ℚ) :
    NapcatClient × SubmitResult :=
  if (g, u) ∈ c.pending_bans then
    (c, SubmitResult.synthetic { status := "ok", retcode := 0 })
  else
    ({ c with
        pending_bans := c.pending_bans ++ [(g, u)]
        ban_queue := c.ban_queue ++
          [{ group_id := g, user_id := u, duration := d, created_at := now }] },
      SubmitResult.enqueued)

/-- How the worker resolved one task's future: `staleTimeout` is
`future.set_exception(asyncio.TimeoutError)` without any bridge call
(lines 153-159); `issued` means the underlying `set_group_ban` request
was sent through `_call_api_internal` and the future got its result or
exception (lines 162-177). -/
inductive TaskOutcome
  | staleTimeout (t : BanTask)
  | issued (t : BanTask)
deriving DecidableEq

/-- One iteration of `NapcatClient._ban_queue_worker` (lines 143-187)
at time `now`: pop the next task (blocking on an empty queue); abandon
it as stale when `now - created_at > BAN_TASK_TIMEOUT` without calling
the bridge, otherwise issue the underlying `set_group_ban` call; in
both branches discard the `(group, user)` key from `_pending_bans`. -/
def NapcatClient.banQueueStep (c : NapcatClient) (now : ℚ) :
    NapcatClient × Option TaskOutcome :=
  match c.ban_queue with
  | [] => (c, none)
  | t :: rest =>
      if BAN_TASK_TIMEOUT < now - t.created_at then
        ({ c with
            ban_queue := rest
            pending_bans := c.pending_bans.filter
              (fun k => decide (k ≠ (t.group_id, t.user_id))) },
          some (TaskOutcome.staleTimeout t))
      else
        ({ c with
            ban_queue := rest
            pending_bans := c.pending_bans.filter
              (fun k => decide (k ≠ (t.group_id, t.user_id)))
            api_calls := c.api_calls ++
              [("set_group_ban", t.group_id, t.user_id, t.duration)] },
          some (TaskOutcome.issued t))

/-- Repeated worker iterations, one per service time in the list. -/
def workerRun (c : NapcatClient) : List ℚ → NapcatClient × List TaskOutcome
  | [] => (c, [])
  | now :: rest =>
      let s := c.banQueueStep now
      let more := workerRun s.1 rest
      match s.2 with
      | none => more
      | some o => (more.1, o :: more.2)

/-- Number of `set_group_ban` requests for one `(g, u)` key among the
requests sent to the bridge. -/
def banCallCount (l : List (String × ℤ × ℤ × ℤ)) (g u : ℤ) : ℕ :=
  (l.filter (fun q => decide (q.1 = "set_group_ban" ∧ q.2.1 = g ∧ q.2.2.1 = u))).length

/-- An inbound WebSocket frame as `listen` sees it after `json.loads`
(napcat_client.py lines 104-121): whether an `echo` key is present,
whether a `status` / `retcode` key is present, the `post_type`
discriminator, and an abstract remaining body. -/
structure Frame where
  echo : Option String
  has_status : Bool
  has_retcode : Bool
  post_type : Option String
  body : ℕ
deriving DecidableEq

/-- The correlation table `_echo_callbacks` (line 43): each registered
echo maps to its future, `none` while unresolved, `some f` once
`set_result(f)` ran. -/
structure Session where
  echo_callbacks : List (String × Option Frame)
deriving DecidableEq

/-- What `listen` did with one frame (lines 104-121): resolve a pending
future, drop an unmatched reply, skip a meta event, or schedule handler
dispatch. -/
inductive ListenAction
  | resolved (echo : String)
  | unknownEchoDropped (echo : String)
  | metaSkipped
  | dispatched (f : Frame)
deriving DecidableEq

/-- The per-frame body of `NapcatClient.listen` (lines 104-121): a
frame carrying an echo plus a status/retcode field is a reply — resolve
its pending future, or log and drop it when no pending entry matches;
`meta_event` frames are skipped; everything else is dispatched to the
message handlers. -/
def listenStep (s : Session) (f : Frame) : Session × ListenAction :=
  match f.echo with
  | some e =>
      if f.has_status = true ∨ f.has_retcode = true then
        match alookup s.echo_callbacks e with
        | some _ =>
            ({ echo_callbacks := aset s.echo_callbacks e (some f) },
              ListenAction.resolved e)
        | none => (s, ListenAction.unknownEchoDropped e)
      else
        if f.post_type = some "meta_event" then (s, ListenAction.metaSkipped)
        else (s, ListenAction.dispatched f)
  | none =>
      if f.post_type = some "meta_event" then (s, ListenAction.metaSkipped)
      else (s, ListenAction.dispatched f)

/-- Registration step of `_call_api_internal` (lines 209-219): a fresh
future is stored under the generated echo. -/
def registerCall (s : Session) (e : String) : Session :=
  { echo_callbacks := aset s.echo_callbacks e none }

/-- How a correlated call can fail. -/
inductive CallFailure
  | timeout
deriving DecidableEq

/-- The completion of `asyncio.wait_for(future, timeout)` in
`_call_api_internal` (lines 224-231), evaluated on the session state at
the moment the wait ends: when the future was resolved the call returns
the reply frame, otherwise the deadline hit and the call raises
`TimeoutError`; the `finally` clause pops the echo entry either way. -/
def awaitCall (s : Session) (e : String) : Session × Except CallFailure Frame :=
  match alookup s.echo_callbacks e with
  | some (some f) => ({ echo_callbacks := aremove s.echo_callbacks e }, Except.ok f)
  | _ => ({ echo_callbacks := aremove s.echo_callbacks e }, Except.error CallFailure.timeout)

end FastMute

namespace FastMute

theorem alookup_aset_self {κ α : Type} [DecidableEq κ] (m : List (κ × α)) (k : κ) (v : α) :
    alookup (aset m k v) k = some v := by
  induction m with
  | nil => simp [alookup, aset]
  | cons p rest ih =>
      obtain ⟨k', v'⟩ := p
      by_cases h : k' = k
      · simp [aset, alookup, h]
      · simp [aset, alookup, h, ih]

theorem aset_aset {κ α : Type} [DecidableEq κ] (m : List (κ × α)) (k : κ) (v w : α) :
    aset (aset m k v) k w = aset m k w := by
  induction m with
  | nil => simp [aset]
  | cons p rest ih =>
      obtain ⟨k', v'⟩ := p
      by_cases h : k' = k
      · simp [aset, h]
      · simp [aset, h, ih]

theorem aset_self_id {κ α : Type} [DecidableEq κ] (m : List (κ × α)) (k : κ) (v : α)
    (h : alookup m k = some v) : aset m k v = m := by
  induction m with
  | nil => simp [alookup] at h
  | cons p rest ih =>
      obtain ⟨k', v'⟩ := p
      by_cases hk : k' = k
      · simp [alookup, hk] at h
        simp [aset, hk, h]
      · simp [alookup, hk] at h
        simp [aset, hk, ih h]

theorem aset_absent {κ α : Type} [DecidableEq κ] (m : List (κ × α)) (k : κ) (v : α)
    (h : alookup m k = none) : aset m k v = m ++ [(k, v)] := by
  induction m with
  | nil => simp [aset]
  | cons p rest ih =>
      obtain ⟨k', v'⟩ := p
      by_cases hk : k' = k
      · simp [alookup, hk] at h
      · simp [alookup, hk] at h
        simp [aset, hk, ih h]

theorem alookup_aremove_self {κ α : Type} [DecidableEq κ] (m : List (κ × α)) (k : κ) :
    alookup (aremove m k) k = none := by
  induction m with
  | nil => simp [aremove, alookup]
  | cons p rest ih =>
      obtain ⟨k', v'⟩ := p
      by_cases hk : k' = k
      · simpa [aremove, List.filter, hk] using ih
      · simpa [aremove, List.filter, hk, alookup] using ih

theorem alookup_map {κ α β : Type} [DecidableEq κ] (m : List (κ × α)) (f : κ → α → β)
    (k : κ) :
    alookup (m.map (fun p => (p.1, f p.1 p.2))) k = (alookup m k).map (f k) := by
  induction m with
  | nil => simp [alookup]
  | cons p rest ih =>
      obtain ⟨k', v'⟩ := p
      by_cases hk : k' = k
      · subst hk
        simp [alookup]
      · simp [alookup, hk, ih]

theorem putRecord_config (D : SpamDetector) (g u : ℤ) (r : UserMessageRecord) :
    (D.putRecord g u r).config = D.config := rfl

theorem putRecord_enabled (D : SpamDetector) (g u : ℤ) (r : UserMessageRecord) (g' : ℤ) :
    (D.putRecord g u r).is_enabled g' = D.is_enabled g' := rfl

theorem userRec_putRecord (D : SpamDetector) (g u : ℤ) (r : UserMessageRecord) :
    (D.putRecord g u r).userRec g u = r := by
  unfold SpamDetector.putRecord SpamDetector.userRec
  simp [alookup_aset_self]

theorem record_message_enabled (D : SpamDetector) (g u : ℤ) (now : ℚ)
    (h : D.is_enabled g = true) :
    D.record_message g u now =
      (D.putRecord g u (stepRecord D.config (D.userRec g u) now).1,
        (stepRecord D.config (D.userRec g u) now).2) := by
  unfold SpamDetector.record_message SpamDetector.recordsGet SpamDetector.putRecord
    SpamDetector.userRec
  simp only [h, if_pos]
  simp [alookup_aset_self, aset_aset]

theorem record_message_disabled (D : SpamDetector) (g u : ℤ) (now : ℚ)
    (h : ¬ D.is_enabled g = true) :
    D.record_message g u now = (D, none) := by
  unfold SpamDetector.record_message
  simp [h]

theorem runDetector_spec (g u : ℤ) (ts : List ℚ) :
    ∀ D : SpamDetector, D.is_enabled g = true →
      (runDetector D g u ts).2 = (runRecord D.config (D.userRec g u) ts).2 ∧
      (runDetector D g u ts).1.userRec g u = (runRecord D.config (D.userRec g u) ts).1 ∧
      (runDetector D g u ts).1.is_enabled g = true ∧
      (runDetector D g u ts).1.config = D.config := by
  induction ts with
  | nil => intro D hen; exact ⟨rfl, rfl, hen, rfl⟩
  | cons t ts ih =>
      intro D hen
      have hstep := record_message_enabled D g u t hen
      have hrec := userRec_putRecord D g u (stepRecord D.config (D.userRec g u) t).1
      have hen' : (D.putRecord g u (stepRecord D.config (D.userRec g u) t).1).is_enabled g = true := by
        rw [putRecord_enabled]; exact hen
      obtain ⟨ho, hr, he, hc⟩ :=
        ih (D.putRecord g u (stepRecord D.config (D.userRec g u) t).1) hen'
      refine ⟨?_, ?_, ?_, ?_⟩
      · simp only [runDetector, runRecord, hstep]
        rw [ho, putRecord_config, hrec]
      · simp only [runDetector, runRecord, hstep]
        rw [hr, putRecord_config, hrec]
      · simp only [runDetector, hstep]
        exact he
      · simp only [runDetector, hstep]
        rw [hc, putRecord_config]

end FastMute

namespace FastMute

theorem dequeAppend_short (xs : List ℚ) (x : ℚ) (h : xs.length + 1 ≤ 100) :
    dequeAppend xs x = xs ++ [x] := by
  unfold dequeAppend
  simp only [List.length_append, List.length_cons, List.length_nil]
  have : xs.length + (0 + 1) - 100 = 0 := by omega
  rw [this, List.drop_zero]

theorem step_muted_active (cfg : MuteConfig) (r : UserMessageRecord) (now : ℚ)
    (hm : r.is_muted = true)
    (h : now < r.last_mute_time + (r.last_mute_duration : ℚ)) :
    stepRecord cfg r now = (r, none) := by
  unfold stepRecord
  rw [if_pos ⟨hm, h⟩]

theorem step_idle_no_trigger (cfg : MuteConfig) (acc : List ℚ) (v : ℕ) (a : ℚ) (b : ℤ)
    (t : ℚ)
    (hcap : acc.length + 1 ≤ 100)
    (hwin : ∀ x ∈ acc ++ [t], t - x < (cfg.time_window : ℚ))
    (hth : ((acc.length + 1 : ℕ) : ℤ) < cfg.message_threshold) :
    stepRecord cfg ⟨acc, v, a, b, false⟩ t = (⟨acc ++ [t], v, a, b, false⟩, none) := by
  unfold stepRecord
  have hfilter :
      (dequeAppend acc t).filter (fun x => decide (t - (cfg.time_window : ℚ) < x)) =
        acc ++ [t] := by
    rw [dequeAppend_short acc t hcap]
    apply List.filter_eq_self.mpr
    intro x hx
    exact decide_eq_true (by linarith [hwin x hx])
  simp only [Bool.false_eq_true, false_and, if_false, dequeAppend_short acc t hcap] at *
  rw [hfilter]
  have hc : ¬ cfg.message_threshold ≤ (((acc ++ [t]).length : ℕ) : ℤ) := by
    simp only [List.length_append, List.length_cons, List.length_nil]
    push_cast
    push_cast at hth
    omega
  simp only [if_neg hc]

theorem step_idle_trigger (cfg : MuteConfig) (acc : List ℚ) (v : ℕ) (a : ℚ) (b : ℤ)
    (t : ℚ)
    (hcap : acc.length + 1 ≤ 100)
    (hwin : ∀ x ∈ acc ++ [t], t - x < (cfg.time_window : ℚ))
    (hth : cfg.message_threshold ≤ ((acc.length + 1 : ℕ) : ℤ)) :
    stepRecord cfg ⟨acc, v, a, b, false⟩ t =
      (⟨[], v + 1, t, calcD cfg (v + 1), true⟩, some (calcD cfg (v + 1))) := by
  unfold stepRecord
  have hfilter :
      (dequeAppend acc t).filter (fun x => decide (t - (cfg.time_window : ℚ) < x)) =
        acc ++ [t] := by
    rw [dequeAppend_short acc t hcap]
    apply List.filter_eq_self.mpr
    intro x hx
    exact decide_eq_true (by linarith [hwin x hx])
  simp only [Bool.false_eq_true, false_and, if_false, dequeAppend_short acc t hcap] at *
  rw [hfilter]
  have hc : cfg.message_threshold ≤ (((acc ++ [t]).length : ℕ) : ℤ) := by
    simp only [List.length_append, List.length_cons, List.length_nil]
    push_cast
    push_cast at hth
    omega
  rw [if_pos hc]
  simp [calculate_mute_duration, calcD]

theorem step_some (cfg : MuteConfig) (r r' : UserMessageRecord) (now : ℚ) (d : ℤ)
    (h : stepRecord cfg r now = (r', some d)) :
    r'.violation_count = r.violation_count + 1 ∧
    d = calcD cfg (r.violation_count + 1) ∧
    r'.is_muted = true ∧ r'.last_mute_time = now ∧ r'.last_mute_duration = d ∧
    r'.timestamps = [] := by
  unfold stepRecord at h
  split at h
  · simp at h
  · simp only [] at h
    split at h
    · rw [Prod.mk.injEq, Option.some.injEq] at h
      obtain ⟨h1, h2⟩ := h
      subst h1
      subst h2
      refine ⟨rfl, ?_, rfl, rfl, rfl, rfl⟩
      simp [calculate_mute_duration, calcD]
    · simp at h

theorem step_none_vc (cfg : MuteConfig) (r r' : UserMessageRecord) (now : ℚ)
    (h : stepRecord cfg r now = (r', none)) :
    r'.violation_count = r.violation_count := by
  unfold stepRecord at h
  split at h
  · rw [Prod.mk.injEq] at h
    rw [← h.1]
  · simp only [] at h
    split at h
    · simp at h
    · rw [Prod.mk.injEq] at h
      rw [← h.1]

theorem runRecord_append (cfg : MuteConfig) (r : UserMessageRecord) (l1 l2 : List ℚ) :
    runRecord cfg r (l1 ++ l2) =
      ((runRecord cfg (runRecord cfg r l1).1 l2).1,
        (runRecord cfg r l1).2 ++ (runRecord cfg (runRecord cfg r l1).1 l2).2) := by
  induction l1 generalizing r with
  | nil => simp [runRecord]
  | cons t l1 ih =>
      simp only [List.cons_append, runRecord, List.append_eq]
      rw [ih]

theorem runRecord_no_trigger (cfg : MuteConfig) (ts : List ℚ) :
    ∀ (acc : List ℚ) (v : ℕ) (a : ℚ) (b : ℤ),
      acc.length + ts.length ≤ 100 →
      ((acc.length + ts.length : ℕ) : ℤ) < cfg.message_threshold →
      (∀ t ∈ ts, ∀ x ∈ acc ++ ts, t - x < (cfg.time_window : ℚ)) →
      runRecord cfg ⟨acc, v, a, b, false⟩ ts =
        (⟨acc ++ ts, v, a, b, false⟩, List.replicate ts.length none) := by
  induction ts with
  | nil => intro acc v a b _ _ _; simp [runRecord]
  | cons t ts ih =>
      intro acc v a b hcap hth hwin
      have hstep : stepRecord cfg ⟨acc, v, a, b, false⟩ t = (⟨acc ++ [t], v, a, b, false⟩, none) := by
        apply step_idle_no_trigger
        · simp only [List.length_cons] at hcap; omega
        · intro x hx
          refine hwin t (by simp) x ?_
          rcases List.mem_append.mp hx with h | h
          · exact List.mem_append.mpr (Or.inl h)
          · simp at h
            simp [h]
        · simp only [List.length_cons] at hth
          push_cast at hth ⊢
          omega
      have hrest :
          runRecord cfg ⟨acc ++ [t], v, a, b, false⟩ ts =
            (⟨(acc ++ [t]) ++ ts, v, a, b, false⟩, List.replicate ts.length none) := by
        apply ih
        · simp only [List.length_append, List.length_cons, List.length_nil]
          simp only [List.length_cons] at hcap
          omega
        · simp only [List.length_append, List.length_cons, List.length_nil]
          simp only [List.length_cons] at hth
          push_cast at hth ⊢
          omega
        · intro t' ht' x hx
          refine hwin t' (by simp [ht']) x ?_
          rcases List.mem_append.mp hx with h | h
          · rcases List.mem_append.mp h with h2 | h2
            · exact List.mem_append.mpr (Or.inl h2)
            · simp at h2
              simp [h2]
          · simp [h]
      simp only [runRecord, hstep, hrest, List.append_assoc, List.cons_append,
        List.nil_append, List.replicate]

end FastMute

namespace FastMute

theorem step_none_cases (cfg : MuteConfig) (r r' : UserMessageRecord) (now : ℚ)
    (h : stepRecord cfg r now = (r', none)) :
    (r.is_muted = true ∧ now < r.last_mute_time + (r.last_mute_duration : ℚ) ∧ r' = r) ∨
    r' = { r with is_muted := false, timestamps := dequeAppend r.timestamps now } := by
  unfold stepRecord at h
  split at h
  · rename_i hc
    rw [Prod.mk.injEq] at h
    exact Or.inl ⟨hc.1, hc.2, h.1.symm⟩
  · simp only [] at h
    split at h
    · simp at h
    · rw [Prod.mk.injEq] at h
      exact Or.inr h.1.symm

/-- Claim C4: against a record in the Muted state, a message at time
`now` with `now < lastMuteAt + lastMuteDuration` makes `record_message`
return `None` with the record entirely unchanged; with
`now ≥ lastMuteAt + lastMuteDuration` the record drops the muted flag
and the very same message is processed under the Idle rules — in
particular, when that processing does not itself trigger, the message's
timestamp has been appended to the record.  (When the re-processing
triggers, the Idle trigger rule clears the whole timestamp list, the
appended timestamp included.) -/
theorem claim_C4 (cfg : MuteConfig) (r : UserMessageRecord) (now : ℚ)
    (hm : r.is_muted = true) :
    (now < r.last_mute_time + (r.last_mute_duration : ℚ) →
      stepRecord cfg r now = (r, none)) ∧
    (r.last_mute_time + (r.last_mute_duration : ℚ) ≤ now →
      stepRecord cfg r now = stepRecord cfg { r with is_muted := false } now ∧
      ((stepRecord cfg r now).2 = none →
        (stepRecord cfg r now).1.timestamps = dequeAppend r.timestamps now)) := by
  constructor
  · intro h
    exact step_muted_active cfg r now hm h
  · intro h2
    have hc1 : ¬ (r.is_muted = true ∧ now < r.last_mute_time + (r.last_mute_duration : ℚ)) := by
      rintro ⟨_, hlt⟩
      linarith
    have hc2 : ¬ (({ r with is_muted := false } : UserMessageRecord).is_muted = true ∧
        now < ({ r with is_muted := false } : UserMessageRecord).last_mute_time +
          (({ r with is_muted := false } : UserMessageRecord).last_mute_duration : ℚ)) := by
      simp
    constructor
    · conv_lhs => unfold stepRecord
      conv_rhs => unfold stepRecord
      rw [if_neg hc1, if_neg hc2]
    · intro hnone
      have hpair : stepRecord cfg r now = ((stepRecord cfg r now).1, none) := by
        rw [← hnone]
      rcases step_none_cases cfg r (stepRecord cfg r now).1 now hpair with h | h
      · linarith [h.2.1]
      · rw [h]

/-- In `claim_C4`, both hypotheses are satisfiable: a muted record
observed before and at the end of its mute period. -/
theorem claim_C4_witness :
    stepRecord defaultMuteConfig
        { timestamps := [], violation_count := 1, last_mute_time := 0,
          last_mute_duration := 60, is_muted := true } 30 =
      ({ timestamps := [], violation_count := 1, last_mute_time := 0,
          last_mute_duration := 60, is_muted := true }, none) ∧
    stepRecord defaultMuteConfig
        { timestamps := [], violation_count := 1, last_mute_time := 0,
          last_mute_duration := 60, is_muted := true } 60 =
      stepRecord defaultMuteConfig
        { timestamps := [], violation_count := 1, last_mute_time := 0,
          last_mute_duration := 60, is_muted := false } 60 :=
  ⟨(claim_C4 defaultMuteConfig _ 30 rfl).1 (by norm_num),
    ((claim_C4 defaultMuteConfig _ 60 rfl).2 (by norm_num)).1⟩

theorem one_le_calcD (cfg : MuteConfig) (v : ℕ)
    (hb : 1 ≤ cfg.mute_duration) (hm : 1 ≤ cfg.mute_multiplier)
    (hx : 1 ≤ cfg.max_mute_duration) :
    1 ≤ calcD cfg (v + 1) := by
  unfold calcD
  refine le_min ?_ hx
  have hexp : ((v + 1 : ℕ) : ℤ) - 1 = ((v : ℕ) : ℤ) := by push_cast; ring
  rw [hexp, zpow_natCast]
  have hb' : (1 : ℚ) ≤ (cfg.mute_duration : ℚ) := by exact_mod_cast hb
  have hpow : (1 : ℚ) ≤ cfg.mute_multiplier ^ v := one_le_pow₀ hm
  have hq : (1 : ℚ) ≤ (cfg.mute_duration : ℚ) * cfg.mute_multiplier ^ v := by nlinarith
  unfold pyTrunc
  rw [if_pos (by linarith)]
  rw [Int.le_floor]
  exact_mod_cast hq

/-- Claim C5 counterexample: the stored `isMuted` flag is cleared only
lazily by the next `record_message` call.  After five messages at time
0 under the default config the record is muted with
`lastMuteAt = 0`, `lastMuteDuration = 60`; observing the engine state
at `now = 60` — once the mute period has elapsed, before any further
message — still finds `isMuted = true` although
`now < lastMuteAt + lastMuteDuration` fails. -/
theorem claim_C5_counterexample :
    (runRecord defaultMuteConfig emptyRecord [0, 0, 0, 0, 0]).1.is_muted = true ∧
    ¬ ((60 : ℚ) < (runRecord defaultMuteConfig emptyRecord [0, 0, 0, 0, 0]).1.last_mute_time +
        ((runRecord defaultMuteConfig emptyRecord [0, 0, 0, 0, 0]).1.last_mute_duration : ℚ)) := by
  have h : runRecord defaultMuteConfig emptyRecord [0, 0, 0, 0, 0] =
      ({ timestamps := [], violation_count := 1, last_mute_time := 0,
          last_mute_duration := 60, is_muted := true }, [none, none, none, none, some 60]) := by
    norm_num [runRecord, stepRecord, dequeAppend, calculate_mute_duration, pyTrunc,
      emptyRecord, defaultMuteConfig, List.filter]
  rw [h]
  norm_num

/-- Claim C5, amended: the stored flag may stay stale between calls;
what the code guarantees is the flag as left by each `record_message`
call.  For configurations whose base, multiplier and maximum duration
are all at least 1, immediately after any `record_message` body run at
time `now` the record satisfies: `isMuted = true` only if
`now < lastMuteAt + lastMuteDuration`. -/
theorem claim_C5 (cfg : MuteConfig) (r : UserMessageRecord) (now : ℚ)
    (hb : 1 ≤ cfg.mute_duration) (hm : 1 ≤ cfg.mute_multiplier)
    (hx : 1 ≤ cfg.max_mute_duration)
    (hmut : (stepRecord cfg r now).1.is_muted = true) :
    now < (stepRecord cfg r now).1.last_mute_time +
      ((stepRecord cfg r now).1.last_mute_duration : ℚ) := by
  cases hout : (stepRecord cfg r now).2 with
  | some d =>
      have hpair : stepRecord cfg r now = ((stepRecord cfg r now).1, some d) := by
        rw [← hout]
      obtain ⟨_, hd, _, hlmt, hlmd, _⟩ :=
        step_some cfg r (stepRecord cfg r now).1 now d hpair
      rw [hlmt, hlmd, hd]
      have h1 : 1 ≤ calcD cfg (r.violation_count + 1) := one_le_calcD cfg _ hb hm hx
      have h1' : (1 : ℚ) ≤ (calcD cfg (r.violation_count + 1) : ℚ) := by exact_mod_cast h1
      linarith
  | none =>
      have hpair : stepRecord cfg r now = ((stepRecord cfg r now).1, none) := by
        rw [← hout]
      rcases step_none_cases cfg r (stepRecord cfg r now).1 now hpair with h | h
      · rw [h.2.2]
        exact h.2.1
      · rw [h] at hmut
        simp at hmut

/-- In `claim_C5`, the hypotheses are satisfiable: a still-muted record
re-observed by a call inside the mute period. -/
theorem claim_C5_witness :
    (30 : ℚ) < (stepRecord defaultMuteConfig
        { timestamps := [], violation_count := 1, last_mute_time := 0,
          last_mute_duration := 60, is_muted := true } 30).1.last_mute_time +
      ((stepRecord defaultMuteConfig
        { timestamps := [], violation_count := 1, last_mute_time := 0,
          last_mute_duration := 60, is_muted := true } 30).1.last_mute_duration : ℚ) :=
  claim_C5 defaultMuteConfig _ 30 (by norm_num [defaultMuteConfig])
    (by norm_num [defaultMuteConfig]) (by norm_num [defaultMuteConfig])
    (by norm_num [stepRecord, defaultMuteConfig])

end FastMute

namespace FastMute

theorem calcD_eq_floor (cfg : MuteConfig) (v : ℕ)
    (hb : 0 ≤ cfg.mute_duration) (hm : 0 ≤ cfg.mute_multiplier) :
    calcD cfg (v + 1) = min cfg.max_mute_duration
      ⌊(cfg.mute_duration : ℚ) * cfg.mute_multiplier ^ (((v + 1 : ℕ) : ℤ) - 1)⌋ := by
  unfold calcD pyTrunc
  have hexp : ((v + 1 : ℕ) : ℤ) - 1 = ((v : ℕ) : ℤ) := by push_cast; ring
  rw [hexp, zpow_natCast]
  have hq : (0 : ℚ) ≤ (cfg.mute_duration : ℚ) * cfg.mute_multiplier ^ v :=
    mul_nonneg (by exact_mod_cast hb) (pow_nonneg hm v)
  rw [if_pos hq, min_comm]

/-- Claim C3: whenever `record_message` triggers a mute, the stored
violation count has been incremented to `n` and the returned duration
is `min(maxMuteDuration, floor(baseMuteDuration * muteMultiplier^(n-1)))`
(for non-negative base and multiplier, where Python's `int()` truncation
is the floor); in particular under the default config (base 60,
multiplier 2.0, max 3600) a first violation returns 60 and, after the
60-second mute has elapsed, a second burst returns 120. -/
theorem claim_C3 (D : SpamDetector) (g u : ℤ) (now : ℚ) (d : ℤ)
    (hb : 0 ≤ D.config.mute_duration) (hm : 0 ≤ D.config.mute_multiplier)
    (h : (D.record_message g u now).2 = some d) :
    (((D.record_message g u now).1.userRec g u).violation_count
        = (D.userRec g u).violation_count + 1 ∧
      d = min D.config.max_mute_duration
        ⌊(D.config.mute_duration : ℚ) * D.config.mute_multiplier ^
          (((((D.record_message g u now).1.userRec g u).violation_count : ℕ) : ℤ) - 1)⌋) ∧
    (runDetector ⟨defaultMuteConfig, [], [(1, true)]⟩ 1 2
        [0, 0, 0, 0, 0, 61, 61, 61, 61, 61]).2.filterMap id = [60, 120] := by
  constructor
  · by_cases hen : D.is_enabled g = true
    · rw [record_message_enabled D g u now hen] at h ⊢
      simp only [userRec_putRecord]
      have hpair : stepRecord D.config (D.userRec g u) now =
          ((stepRecord D.config (D.userRec g u) now).1, some d) := by
        rw [← h]
      obtain ⟨hvc, hd, _⟩ :=
        step_some D.config (D.userRec g u) (stepRecord D.config (D.userRec g u) now).1 now d hpair
      refine ⟨hvc, ?_⟩
      rw [hvc, hd]
      exact calcD_eq_floor D.config (D.userRec g u).violation_count hb hm
    · rw [record_message_disabled D g u now hen] at h
      simp at h
  · norm_num [runDetector, SpamDetector.record_message, SpamDetector.is_enabled,
      SpamDetector.recordsGet, SpamDetector.putRecord, stepRecord, dequeAppend,
      calculate_mute_duration, pyTrunc, emptyRecord, defaultMuteConfig, alookup, aset,
      List.filter, List.filterMap]

/-- In `claim_C3`, the hypotheses are satisfiable: a fifth message
within the window triggers and returns 60 under the default config. -/
theorem claim_C3_witness :
    let X : SpamDetector :=
      SpamDetector.mk defaultMuteConfig [(1, [(2, ⟨[0, 0, 0, 0], 0, 0, 0, false⟩)])] [(1, true)]
    ((X.record_message 1 2 0).1.userRec 1 2).violation_count
      = (X.userRec 1 2).violation_count + 1 ∧
    (60 : ℤ) = min X.config.max_mute_duration
      ⌊(X.config.mute_duration : ℚ) * X.config.mute_multiplier ^
        (((((X.record_message 1 2 0).1.userRec 1 2).violation_count : ℕ) : ℤ) - 1)⌋ :=
  (claim_C3 (SpamDetector.mk defaultMuteConfig [(1, [(2, ⟨[0, 0, 0, 0], 0, 0, 0, false⟩)])]
      [(1, true)]) 1 2 0 60 (by norm_num [defaultMuteConfig]) (by norm_num [defaultMuteConfig])
    (by norm_num [SpamDetector.record_message, SpamDetector.is_enabled,
      SpamDetector.recordsGet, SpamDetector.putRecord, stepRecord, dequeAppend,
      calculate_mute_duration, pyTrunc, emptyRecord, defaultMuteConfig, alookup, aset,
      List.filter])).1

/-- Claim C1 counterexample: the claim quantifies over every
`N ≥ threshold`, but the trigger fires on the threshold-th arrival, not
the N-th.  Under the default config (threshold 5), six messages at time
0 in an enabled group from a never-seen user yield a duration on the
5th arrival — one of the "first N−1" arrivals, which the claim says all
return None — and None on the 6th. -/
theorem claim_C1_counterexample :
    defaultMuteConfig.message_threshold ≤ (6 : ℤ) ∧
    (runDetector ⟨defaultMuteConfig, [], [(1, true)]⟩ 1 2 [0, 0, 0, 0, 0, 0]).2 =
      [none, none, none, none, some 60, none] ∧
    ¬ ((runDetector ⟨defaultMuteConfig, [], [(1, true)]⟩ 1 2 [0, 0, 0, 0, 0, 0]).2.take 5 =
        List.replicate 5 (none : Option ℤ)) := by
  have h : (runDetector ⟨defaultMuteConfig, [], [(1, true)]⟩ 1 2 [0, 0, 0, 0, 0, 0]).2 =
      [none, none, none, none, some 60, none] := by
    norm_num [runDetector, SpamDetector.record_message, SpamDetector.is_enabled,
      SpamDetector.recordsGet, SpamDetector.putRecord, stepRecord, dequeAppend,
      calculate_mute_duration, pyTrunc, emptyRecord, defaultMuteConfig, alookup, aset,
      List.filter]
  refine ⟨by norm_num [defaultMuteConfig], h, ?_⟩
  rw [h]
  simp [List.replicate]

/-- Claim C1, amended: for an enabled group and a never-seen user, `N`
arrivals within a span shorter than the window, where `N` equals the
configured threshold (the arrival on which the trigger actually fires)
and the threshold is at most the record capacity 100, make
`record_message` return None on the first `N−1` arrivals and the
escalated duration on the `N`-th; every further arrival before that
duration has elapsed returns None and leaves the user's record
unchanged. -/
theorem claim_C1 (D : SpamDetector) (g u : ℤ) (times : List ℚ) (hne : times ≠ [])
    (hen : D.is_enabled g = true)
    (hfresh : D.userRec g u = emptyRecord)
    (hcap : D.config.message_threshold ≤ 100)
    (hlen : (times.length : ℤ) = D.config.message_threshold)
    (hwin : ∀ t ∈ times, ∀ x ∈ times, t - x < (D.config.time_window : ℚ)) :
    (runDetector D g u times).2 =
      List.replicate (times.length - 1) none ++ [some (calcD D.config 1)] ∧
    ∀ t' : ℚ, t' < times.getLast hne + (calcD D.config 1 : ℚ) →
      ((runDetector D g u times).1.record_message g u t').2 = none ∧
      ((runDetector D g u times).1.record_message g u t').1.userRec g u =
        (runDetector D g u times).1.userRec g u := by
  obtain ⟨ho, hr, he, hc⟩ := runDetector_spec g u times D hen
  rw [hfresh] at ho hr
  have hlen100 : times.length ≤ 100 := by
    have : (times.length : ℤ) ≤ 100 := hlen ▸ hcap
    exact_mod_cast this
  have hlen1 : 1 ≤ times.length := List.length_pos.mpr hne
  have hdec : times.dropLast ++ [times.getLast hne] = times :=
    List.dropLast_append_getLast hne
  have hdl : times.dropLast.length = times.length - 1 := List.length_dropLast times
  have hnt : runRecord D.config emptyRecord times.dropLast =
      ({ timestamps := times.dropLast, violation_count := 0, last_mute_time := 0,
          last_mute_duration := 0, is_muted := false },
        List.replicate times.dropLast.length none) := by
    have := runRecord_no_trigger D.config times.dropLast [] 0 0 0
      (by simp only [List.length_nil]; omega)
      (by
        simp only [List.length_nil]
        rw [← hlen]
        rw [hdl]
        push_cast
        omega)
      (by
        intro t ht x hx
        simp only [List.nil_append] at hx
        exact hwin t (List.mem_of_mem_dropLast ht) x (List.mem_of_mem_dropLast hx))
    simpa [emptyRecord] using this
  have htrig : stepRecord D.config
      { timestamps := times.dropLast, violation_count := 0, last_mute_time := 0,
        last_mute_duration := 0, is_muted := false } (times.getLast hne) =
      ({ timestamps := [], violation_count := 1, last_mute_time := times.getLast hne,
          last_mute_duration := calcD D.config 1, is_muted := true },
        some (calcD D.config 1)) := by
    have := step_idle_trigger D.config times.dropLast 0 0 0 (times.getLast hne)
      (by omega)
      (by
        intro x hx
        rw [hdec] at hx
        exact hwin (times.getLast hne) (List.getLast_mem hne) x hx)
      (by
        rw [← hlen]
        rw [hdl]
        push_cast
        omega)
    simpa using this
  have hrun : runRecord D.config emptyRecord times =
      ({ timestamps := [], violation_count := 1, last_mute_time := times.getLast hne,
          last_mute_duration := calcD D.config 1, is_muted := true },
        List.replicate (times.length - 1) none ++ [some (calcD D.config 1)]) := by
    conv_lhs => rw [← hdec]
    rw [runRecord_append, hnt]
    simp [runRecord, htrig, hdl]
  constructor
  · rw [ho, hrun]
  · intro t' ht'
    have hrM : (runDetector D g u times).1.userRec g u =
        { timestamps := [], violation_count := 1, last_mute_time := times.getLast hne,
          last_mute_duration := calcD D.config 1, is_muted := true } := by
      rw [hr, hrun]
    have hstep : stepRecord (runDetector D g u times).1.config
        ((runDetector D g u times).1.userRec g u) t' =
        ((runDetector D g u times).1.userRec g u, none) := by
      rw [hrM, hc]
      exact step_muted_active D.config _ t' rfl (by simpa using ht')
    rw [record_message_enabled (runDetector D g u times).1 g u t' he, hstep]
    exact ⟨rfl, userRec_putRecord _ g u _⟩

/-- In `claim_C1`, the hypotheses are satisfiable: threshold-many
messages at time 0 in an enabled group from a never-seen user. -/
theorem claim_C1_witness :
    (runDetector ⟨defaultMuteConfig, [], [(1, true)]⟩ 1 2 [0, 0, 0, 0, 0]).2 =
      List.replicate (([0, 0, 0, 0, 0] : List ℚ).length - 1) none ++
        [some (calcD defaultMuteConfig 1)] :=
  (claim_C1 ⟨defaultMuteConfig, [], [(1, true)]⟩ 1 2 [0, 0, 0, 0, 0] (by simp)
    (by decide) rfl (by norm_num [defaultMuteConfig]) (by norm_num [defaultMuteConfig])
    (by
      intro t ht x hx
      simp only [List.mem_cons, List.not_mem_nil, or_false] at ht hx
      have ht0 : t = 0 := by tauto
      have hx0 : x = 0 := by tauto
      rw [ht0, hx0]
      norm_num [defaultMuteConfig])).1

end FastMute

namespace FastMute

theorem calcD_mono (cfg : MuteConfig) (hb : 0 ≤ cfg.mute_duration)
    (hm : 1 ≤ cfg.mute_multiplier) (v w : ℕ) (hv : 1 ≤ v) (hvw : v ≤ w) :
    calcD cfg v ≤ calcD cfg w := by
  unfold calcD
  refine min_le_min ?_ le_rfl
  have hm0 : (0 : ℚ) ≤ cfg.mute_multiplier := le_trans zero_le_one hm
  have hev : ((v : ℕ) : ℤ) - 1 = ((v - 1 : ℕ) : ℤ) := by omega
  have hew : ((w : ℕ) : ℤ) - 1 = ((w - 1 : ℕ) : ℤ) := by omega
  rw [hev, hew, zpow_natCast, zpow_natCast]
  have hpp : cfg.mute_multiplier ^ (v - 1) ≤ cfg.mute_multiplier ^ (w - 1) :=
    pow_le_pow_right₀ hm (by omega)
  have hb' : (0 : ℚ) ≤ (cfg.mute_duration : ℚ) := by exact_mod_cast hb
  have hq : (cfg.mute_duration : ℚ) * cfg.mute_multiplier ^ (v - 1) ≤
      (cfg.mute_duration : ℚ) * cfg.mute_multiplier ^ (w - 1) :=
    mul_le_mul_of_nonneg_left hpp hb'
  have h0 : (0 : ℚ) ≤ (cfg.mute_duration : ℚ) * cfg.mute_multiplier ^ (v - 1) :=
    mul_nonneg hb' (pow_nonneg hm0 _)
  unfold pyTrunc
  rw [if_pos h0, if_pos (le_trans h0 hq)]
  exact Int.floor_mono hq

theorem chain_le_map_calcD (cfg : MuteConfig) (hb : 0 ≤ cfg.mute_duration)
    (hm : 1 ≤ cfg.mute_multiplier) :
    ∀ l : List ℕ, (∀ v ∈ l, 1 ≤ v) → l.Chain' (· < ·) →
      (l.map (calcD cfg)).Chain' (· ≤ ·)
  | [], _, _ => by simp
  | [_], _, _ => by simp
  | v :: w :: l, h1, hch => by
      rw [List.map_cons, List.map_cons, List.chain'_cons]
      rw [List.chain'_cons] at hch
      refine ⟨calcD_mono cfg hb hm v w (h1 v (by simp)) (le_of_lt hch.1), ?_⟩
      have := chain_le_map_calcD cfg hb hm (w :: l)
        (fun x hx => h1 x (List.mem_cons_of_mem v hx)) hch.2
      rwa [List.map_cons] at this

theorem runRecord_some_outputs (cfg : MuteConfig) (times : List ℚ) :
    ∀ r : UserMessageRecord,
      ∃ vs : List ℕ,
        (runRecord cfg r times).2.filterMap id = vs.map (calcD cfg) ∧
        vs.Chain' (· < ·) ∧ ∀ v ∈ vs, r.violation_count < v := by
  induction times with
  | nil => intro r; exact ⟨[], by simp [runRecord], by simp, by simp⟩
  | cons t ts ih =>
      intro r
      obtain ⟨vs, hmap, hchain, hgt⟩ := ih (stepRecord cfg r t).1
      cases hout : (stepRecord cfg r t).2 with
      | none =>
          have hpair : stepRecord cfg r t = ((stepRecord cfg r t).1, none) := by
            rw [← hout]
          have hvc := step_none_vc cfg r (stepRecord cfg r t).1 t hpair
          refine ⟨vs, ?_, hchain, ?_⟩
          · simp only [runRecord, hout, List.filterMap_cons, id]
            exact hmap
          · intro v hv
            have := hgt v hv
            omega
      | some d =>
          have hpair : stepRecord cfg r t = ((stepRecord cfg r t).1, some d) := by
            rw [← hout]
          obtain ⟨hvc, hd, _⟩ := step_some cfg r (stepRecord cfg r t).1 t d hpair
          refine ⟨(r.violation_count + 1) :: vs, ?_, ?_, ?_⟩
          · simp only [runRecord, hout, List.filterMap_cons, id]
            rw [List.map_cons, ← hd, hmap]
          · rw [List.chain'_cons']
            refine ⟨?_, hchain⟩
            intro y hy
            have := hgt y (List.mem_of_mem_head? hy)
            omega
          · intro v hv
            rcases List.mem_cons.mp hv with rfl | hv
            · omega
            · have := hgt v hv
              omega

/-- Claim C8: along any sequence of `record_message` calls against one
record (no intervening reset), the returned mute durations form a
non-decreasing sequence, and each is at most the configured maximum
(for a non-negative base and a multiplier at least 1, the regime the
escalation is configured for). -/
theorem claim_C8 (cfg : MuteConfig) (hb : 0 ≤ cfg.mute_duration)
    (hm : 1 ≤ cfg.mute_multiplier) (r : UserMessageRecord) (times : List ℚ) :
    ((runRecord cfg r times).2.filterMap id).Chain' (· ≤ ·) ∧
    ∀ d ∈ (runRecord cfg r times).2.filterMap id, d ≤ cfg.max_mute_duration := by
  obtain ⟨vs, hmap, hchain, hgt⟩ := runRecord_some_outputs cfg times r
  rw [hmap]
  constructor
  · exact chain_le_map_calcD cfg hb hm vs (fun v hv => by have := hgt v hv; omega) hchain
  · intro d hd
    obtain ⟨v, _, rfl⟩ := List.mem_map.mp hd
    unfold calcD
    exact min_le_right _ _

/-- In `claim_C8`, the hypotheses are satisfiable: the default config
applied to a ten-message trace producing durations 60 then 120. -/
theorem claim_C8_witness :
    ((runRecord defaultMuteConfig emptyRecord
        [0, 0, 0, 0, 0, 61, 61, 61, 61, 61]).2.filterMap id).Chain' (· ≤ ·) ∧
    ∀ d ∈ (runRecord defaultMuteConfig emptyRecord
        [0, 0, 0, 0, 0, 61, 61, 61, 61, 61]).2.filterMap id,
      d ≤ defaultMuteConfig.max_mute_duration :=
  claim_C8 defaultMuteConfig (by norm_num [defaultMuteConfig])
    (by norm_num [defaultMuteConfig]) emptyRecord [0, 0, 0, 0, 0, 61, 61, 61, 61, 61]

/-- Claim C9: even when the persistence write fails, `set_enabled`
returns normally with the in-memory flag updated to the requested
value — the detector state is identical to the one a successful write
produces — so subsequent `is_enabled` and `record_message` calls
observe the new flag for the running process. -/
theorem claim_C9 (D : SpamDetector) (g : ℤ) (b : Bool) (u : ℤ) (now : ℚ) :
    D.set_enabled g b false = D.set_enabled g b true ∧
    (D.set_enabled g b false).is_enabled g = b ∧
    (b = false →
      (D.set_enabled g b false).record_message g u now = (D.set_enabled g b false, none)) ∧
    (b = true →
      (D.set_enabled g b false).record_message g u now =
        ((D.set_enabled g b false).putRecord g u
            (stepRecord D.config ((D.set_enabled g b false).userRec g u) now).1,
          (stepRecord D.config ((D.set_enabled g b false).userRec g u) now).2)) := by
  have hstate : D.set_enabled g b false = D.set_enabled g b true := rfl
  have hflag : (D.set_enabled g b false).is_enabled g = b := by
    unfold SpamDetector.set_enabled save_state SpamDetector.is_enabled
    simp [alookup_aset_self]
  refine ⟨hstate, hflag, ?_, ?_⟩
  · intro hb0
    apply record_message_disabled
    rw [hflag, hb0]
    simp
  · intro hb1
    have hen : (D.set_enabled g b false).is_enabled g = true := by rw [hflag, hb1]
    have hcfg : (D.set_enabled g b false).config = D.config := rfl
    have := record_message_enabled (D.set_enabled g b false) g u now hen
    rwa [hcfg] at this

/-- In `claim_C9`, a disabling toggle whose persistence write fails is
still observed by the next `record_message`, which becomes a no-op. -/
theorem claim_C9_witness :
    ((⟨defaultMuteConfig, [], [(5, true)]⟩ : SpamDetector).set_enabled 5 false
        false).record_message 5 7 0 =
      ((⟨defaultMuteConfig, [], [(5, true)]⟩ : SpamDetector).set_enabled 5 false false, none) :=
  (claim_C9 ⟨defaultMuteConfig, [], [(5, true)]⟩ 5 false 7 0).2.2.1 rfl

theorem alookup_absent_append {κ α : Type} [DecidableEq κ] (m l : List (κ × α)) (k : κ)
    (h : alookup m k = none) : alookup (m ++ l) k = alookup l k := by
  induction m with
  | nil => simp
  | cons p rest ih =>
      obtain ⟨k', v'⟩ := p
      by_cases hk : k' = k
      · simp [alookup, hk] at h
      · simp only [alookup, hk, if_false, List.cons_append] at h ⊢
        exact ih h

theorem alookup_get_status (D : SpamDetector) (g : ℤ) (b : Bool)
    (h : alookup D.enabled g = some b) :
    alookup D.get_status g = some
      { enabled := b
        tracked_users := ((alookup D.records g).getD []).length
        total_violations :=
          (((alookup D.records g).getD []).map (fun q => q.2.violation_count)).sum } := by
  unfold SpamDetector.get_status
  revert h
  generalize D.enabled = l
  induction l with
  | nil => intro h; simp [alookup] at h
  | cons p rest ih =>
      obtain ⟨k', v'⟩ := p
      intro h
      by_cases hk : k' = g
      · subst hk
        have hv : v' = b := by simpa [alookup] using h
        subst hv
        simp [alookup]
      · simp only [alookup, hk, if_false] at h
        simp only [List.map_cons, alookup, hk, if_false]
        exact ih h

/-- Claim C10: `get_user_stats(G, U)` on a never-observed pair is not
side-effect-free: it returns the all-zero stats and, through the
`defaultdict` access, inserts a fresh empty `UserMessageRecord` under
`(G, U)`, so `get_status` afterwards (for a group `G` carrying an
enable flag, the groups `get_status` reports) counts `U` among `G`'s
tracked users — one more than before — while the violation total is
unchanged. -/
theorem claim_C10 (D : SpamDetector) (g u : ℤ) (b : Bool)
    (hnew : alookup ((alookup D.records g).getD []) u = none)
    (hflag : alookup D.enabled g = some b) :
    (D.get_user_stats g u).1 =
      { violation_count := 0, recent_messages := 0, last_mute_time := 0,
        last_mute_duration := 0 } ∧
    alookup ((alookup (D.get_user_stats g u).2.records g).getD []) u = some emptyRecord ∧
    alookup ((D.get_user_stats g u).2.get_status) g = some
      { enabled := b
        tracked_users := ((alookup D.records g).getD []).length + 1
        total_violations :=
          (((alookup D.records g).getD []).map (fun q => q.2.violation_count)).sum } := by
  have hget : D.get_user_stats g u =
      ({ violation_count := 0, recent_messages := 0, last_mute_time := 0,
          last_mute_duration := 0 },
        SpamDetector.mk D.config
          (aset D.records g ((alookup D.records g).getD [] ++ [(u, emptyRecord)]))
          D.enabled) := by
    unfold SpamDetector.get_user_stats SpamDetector.recordsGet
    simp only []
    rw [hnew]
    simp only [Option.getD_none]
    rw [aset_absent _ _ _ hnew]
    simp [emptyRecord]
  refine ⟨?_, ?_, ?_⟩
  · rw [hget]
  · rw [hget]
    dsimp only
    simp only [alookup_aset_self, Option.getD_some]
    rw [alookup_absent_append _ _ _ hnew]
    simp [alookup]
  · rw [hget]
    dsimp only
    have hst := alookup_get_status
      (SpamDetector.mk D.config
        (aset D.records g ((alookup D.records g).getD [] ++ [(u, emptyRecord)]))
        D.enabled) g b hflag
    rw [hst]
    simp only [alookup_aset_self, Option.getD_some, List.length_append,
      List.length_cons, List.length_nil, List.map_append, List.sum_append]
    simp [emptyRecord]

/-- In `claim_C10`, the hypotheses are satisfiable: a detector with one
enabled group and no records at all. -/
theorem claim_C10_witness :
    ((⟨defaultMuteConfig, [], [(5, true)]⟩ : SpamDetector).get_user_stats 5 7).1 =
      { violation_count := 0, recent_messages := 0, last_mute_time := 0,
        last_mute_duration := 0 } ∧
    alookup ((alookup ((⟨defaultMuteConfig, [], [(5, true)]⟩ :
        SpamDetector).get_user_stats 5 7).2.records 5).getD []) 7 = some emptyRecord ∧
    alookup (((⟨defaultMuteConfig, [], [(5, true)]⟩ :
        SpamDetector).get_user_stats 5 7).2.get_status) 5 = some
      { enabled := true
        tracked_users := ((alookup ([] : List (ℤ × List (ℤ × UserMessageRecord))) 5).getD
          []).length + 1
        total_violations :=
          (((alookup ([] : List (ℤ × List (ℤ × UserMessageRecord))) 5).getD []).map
            (fun q => q.2.violation_count)).sum } :=
  claim_C10 ⟨defaultMuteConfig, [], [(5, true)]⟩ 5 7 true rfl rfl

end FastMute

namespace FastMute

theorem workerRun_empty_queue (tms : List ℚ) :
    ∀ c : NapcatClient, c.ban_queue = [] → workerRun c tms = (c, []) := by
  induction tms with
  | nil => intro c _; rfl
  | cons now rest ih =>
      intro c h
      simp only [workerRun, NapcatClient.banQueueStep, h]
      exact ih c h

theorem workerRun_timely (tms : List ℚ) :
    ∀ c : NapcatClient,
      (∀ t ∈ c.ban_queue, ∀ now ∈ tms, now - t.created_at ≤ BAN_TASK_TIMEOUT) →
      c.ban_queue.length ≤ tms.length →
      (workerRun c tms).1.api_calls = c.api_calls ++
        c.ban_queue.map (fun t => ("set_group_ban", t.group_id, t.user_id, t.duration)) := by
  induction tms with
  | nil =>
      intro c _ hlen
      have hq : c.ban_queue = [] := List.length_eq_zero.mp (Nat.le_zero.mp hlen)
      rw [workerRun_empty_queue [] c hq]
      simp [hq]
  | cons now rest ih =>
      intro c htime hlen
      cases hq : c.ban_queue with
      | nil =>
          rw [workerRun_empty_queue (now :: rest) c hq]
          simp [hq]
      | cons t q =>
          have hnotstale : ¬ BAN_TASK_TIMEOUT < now - t.created_at := by
            have := htime t (by rw [hq]; exact List.mem_cons_self t q) now
              (List.mem_cons_self now rest)
            linarith
          have hstep : c.banQueueStep now =
              ({ c with
                  ban_queue := q,
                  pending_bans := c.pending_bans.filter
                    (fun k => decide (k ≠ (t.group_id, t.user_id))),
                  api_calls := c.api_calls ++
                    [("set_group_ban", t.group_id, t.user_id, t.duration)] },
                some (TaskOutcome.issued t)) := by
            unfold NapcatClient.banQueueStep
            rw [hq]
            simp only []
            rw [if_neg hnotstale]
          have hrec := ih (c.banQueueStep now).1
            (by
              rw [hstep]
              intro t' ht' now' hnow'
              exact htime t' (by rw [hq]; exact List.mem_cons_of_mem t ht') now'
                (List.mem_cons_of_mem now hnow'))
            (by
              rw [hstep]
              show q.length ≤ rest.length
              rw [hq] at hlen
              simp only [List.length_cons] at hlen
              omega)
          simp only [workerRun, hstep]
          simp only [hstep] at hrec
          rw [hrec]
          simp [List.append_assoc]

theorem set_group_ban_hit (c : NapcatClient) (g u d : ℤ) (now : ℚ)
    (h : (g, u) ∈ c.pending_bans) :
    c.set_group_ban g u d now =
      (c, SubmitResult.synthetic { status := "ok", retcode := 0 }) := by
  unfold NapcatClient.set_group_ban
  rw [if_pos h]

theorem set_group_ban_miss (c : NapcatClient) (g u d : ℤ) (now : ℚ)
    (h : (g, u) ∉ c.pending_bans) :
    c.set_group_ban g u d now =
      ({ c with
          pending_bans := c.pending_bans ++ [(g, u)],
          ban_queue := c.ban_queue ++
            [{ group_id := g, user_id := u, duration := d, created_at := now }] },
        SubmitResult.enqueued) := by
  unfold NapcatClient.set_group_ban
  rw [if_neg h]

theorem banCallCount_append (l1 l2 : List (String × ℤ × ℤ × ℤ)) (g u : ℤ) :
    banCallCount (l1 ++ l2) g u = banCallCount l1 g u + banCallCount l2 g u := by
  unfold banCallCount
  rw [List.filter_append, List.length_append]

theorem banCallCount_map_no_key (g u : ℤ) (q : List BanTask)
    (h : ∀ t ∈ q, ¬ (t.group_id = g ∧ t.user_id = u)) :
    banCallCount (q.map (fun t => ("set_group_ban", t.group_id, t.user_id, t.duration)))
      g u = 0 := by
  induction q with
  | nil => rfl
  | cons t q ih =>
      have ht := h t (List.mem_cons_self t q)
      unfold banCallCount at ih ⊢
      rw [List.map_cons, List.filter_cons]
      rw [if_neg (by simp only [decide_eq_true_eq]; intro hc; exact ht ⟨hc.2.1, hc.2.2⟩)]
      exact ih (fun x hx => h x (List.mem_cons_of_mem t hx))

theorem banCallCount_single (g u d : ℤ) :
    banCallCount [("set_group_ban", g, u, d)] g u = 1 := by
  simp [banCallCount, List.filter_cons]

/-- Claim C2: with no task pending for `(G, U)`, a first
`set_group_ban(G, U, d1)` enqueues a `BanTask`; a second
`set_group_ban(G, U, d2)` issued before the worker serviced the first
immediately returns the synthetic success `{"status": "ok",
"retcode": 0}`, changes nothing and enqueues nothing — the queue holds
exactly one task for the key — and draining the queue (every task
serviced within the staleness bound) issues exactly one underlying
`set_group_ban` request to the bridge for `(G, U)`. -/
theorem claim_C2 (c : NapcatClient) (g u d1 d2 : ℤ) (t1 t2 : ℚ) (tms : List ℚ)
    (hpend : (g, u) ∉ c.pending_bans)
    (hqueue : ∀ t ∈ c.ban_queue, ¬ (t.group_id = g ∧ t.user_id = u))
    (htimely : ∀ t ∈ ((c.set_group_ban g u d1 t1).1.set_group_ban g u d2 t2).1.ban_queue,
        ∀ now ∈ tms, now - t.created_at ≤ BAN_TASK_TIMEOUT)
    (hlen : ((c.set_group_ban g u d1 t1).1.set_group_ban g u d2 t2).1.ban_queue.length ≤
      tms.length) :
    (c.set_group_ban g u d1 t1).2 = SubmitResult.enqueued ∧
    ((c.set_group_ban g u d1 t1).1.set_group_ban g u d2 t2).2 =
      SubmitResult.synthetic { status := "ok", retcode := 0 } ∧
    ((c.set_group_ban g u d1 t1).1.set_group_ban g u d2 t2).1 =
      (c.set_group_ban g u d1 t1).1 ∧
    (((c.set_group_ban g u d1 t1).1.set_group_ban g u d2 t2).1.ban_queue.filter
        (fun t => decide (t.group_id = g ∧ t.user_id = u))).length = 1 ∧
    banCallCount
        (workerRun ((c.set_group_ban g u d1 t1).1.set_group_ban g u d2 t2).1 tms).1.api_calls
        g u =
      banCallCount c.api_calls g u + 1 := by
  have h1 := set_group_ban_miss c g u d1 t1 hpend
  have hmem : (g, u) ∈ (c.set_group_ban g u d1 t1).1.pending_bans := by
    rw [h1]
    exact List.mem_append_right _ (List.mem_singleton.mpr rfl)
  have h2 := set_group_ban_hit (c.set_group_ban g u d1 t1).1 g u d2 t2 hmem
  refine ⟨by rw [h1], by rw [h2], by rw [h2], ?_, ?_⟩
  · rw [h2, h1]
    simp only [List.filter_append, List.length_append]
    rw [List.filter_eq_nil_iff.mpr
      (fun t ht => by simp only [decide_eq_true_eq]; exact hqueue t ht)]
    simp [List.filter_cons]
  · rw [h2] at htimely hlen ⊢
    rw [workerRun_timely tms (c.set_group_ban g u d1 t1).1 htimely hlen]
    rw [h1]
    simp only [banCallCount_append, List.map_append, List.map_cons, List.map_nil]
    rw [banCallCount_map_no_key g u c.ban_queue hqueue]
    simp [banCallCount_single]

/-- In `claim_C2`, the hypotheses are satisfiable: two submissions for
the same user against a fresh client, drained at times 1 and 2. -/
theorem claim_C2_witness :
    let c0 : NapcatClient := ⟨[], [], []⟩
    banCallCount
        (workerRun ((c0.set_group_ban 1 2 60 0).1.set_group_ban 1 2 120 0).1 [1, 2]).1.api_calls
        1 2 =
      banCallCount c0.api_calls 1 2 + 1 :=
  (claim_C2 ⟨[], [], []⟩ 1 2 60 120 0 0 [1, 2] (by simp) (by simp)
    (by norm_num [NapcatClient.set_group_ban, BAN_TASK_TIMEOUT, List.forall_mem_cons])
    (by norm_num [NapcatClient.set_group_ban])).2.2.2.2

/-- Claim C7: a task the worker pulls whose age exceeds the staleness
bound (30 s) is abandoned: its future is resolved with a Timeout
failure (`staleTimeout`), its `(group, user)` key is discarded from the
pending set, and no underlying request is issued to the bridge. -/
theorem claim_C7 (c : NapcatClient) (t : BanTask) (q : List BanTask) (now : ℚ)
    (hq : c.ban_queue = t :: q)
    (hstale : BAN_TASK_TIMEOUT < now - t.created_at) :
    c.banQueueStep now =
      ({ c with
          ban_queue := q,
          pending_bans := c.pending_bans.filter
            (fun k => decide (k ≠ (t.group_id, t.user_id))) },
        some (TaskOutcome.staleTimeout t)) ∧
    (t.group_id, t.user_id) ∉ (c.banQueueStep now).1.pending_bans ∧
    (c.banQueueStep now).1.api_calls = c.api_calls := by
  have hstep : c.banQueueStep now =
      ({ c with
          ban_queue := q,
          pending_bans := c.pending_bans.filter
            (fun k => decide (k ≠ (t.group_id, t.user_id))) },
        some (TaskOutcome.staleTimeout t)) := by
    unfold NapcatClient.banQueueStep
    rw [hq]
    simp only []
    rw [if_pos hstale]
  refine ⟨hstep, ?_, by rw [hstep]⟩
  rw [hstep]
  simp [List.mem_filter]

/-- In `claim_C7`, the hypotheses are satisfiable: a 31-second-old task
pulled by the worker. -/
theorem claim_C7_witness :
    let c : NapcatClient := ⟨[(1, 2)], [⟨1, 2, 60, 0⟩], []⟩
    ((1 : ℤ), (2 : ℤ)) ∉ (c.banQueueStep 31).1.pending_bans ∧
    (c.banQueueStep 31).1.api_calls = c.api_calls :=
  (claim_C7 ⟨[(1, 2)], [⟨1, 2, 60, 0⟩], []⟩ ⟨1, 2, 60, 0⟩ [] 31 rfl
    (by norm_num [BAN_TASK_TIMEOUT])).2

/-- Claim C6: for a registered pending call with echo `e` (an
unresolved future in the correlation table): a reply frame carrying `e`
and a status/retcode field resolves that future with the reply payload
and is not forwarded to handlers, after which `wait_for` returns the
payload and pops the entry; if instead the timeout elapses first, the
call fails with Timeout and the entry is removed; a reply bearing `e`
arriving after that is classified as an unknown-echo reply and dropped
— the session state is unchanged, nothing is resolved, no error is
raised, and nothing reaches the message handlers. -/
theorem claim_C6 (s : Session) (e : String) (f : Frame)
    (hw : alookup s.echo_callbacks e = some none)
    (he : f.echo = some e)
    (hr : f.has_status = true ∨ f.has_retcode = true) :
    (listenStep s f =
        ({ echo_callbacks := aset s.echo_callbacks e (some f) }, ListenAction.resolved e) ∧
      awaitCall { echo_callbacks := aset s.echo_callbacks e (some f) } e =
        ({ echo_callbacks := aremove (aset s.echo_callbacks e (some f)) e }, Except.ok f)) ∧
    (awaitCall s e =
        ({ echo_callbacks := aremove s.echo_callbacks e }, Except.error CallFailure.timeout) ∧
      alookup (aremove s.echo_callbacks e) e = none) ∧
    listenStep { echo_callbacks := aremove s.echo_callbacks e } f =
      ({ echo_callbacks := aremove s.echo_callbacks e }, ListenAction.unknownEchoDropped e) := by
  refine ⟨⟨?_, ?_⟩, ⟨?_, alookup_aremove_self _ _⟩, ?_⟩
  · unfold listenStep
    rw [he]
    simp only []
    rw [if_pos hr, hw]
  · unfold awaitCall
    rw [alookup_aset_self]
  · unfold awaitCall
    rw [hw]
  · unfold listenStep
    rw [he]
    simp only []
    rw [if_pos hr, alookup_aremove_self]

/-- In `claim_C6`, the hypotheses are satisfiable: one pending call
`echo_1` and a matching status-bearing reply frame. -/
theorem claim_C6_witness :
    let s : Session := ⟨[("echo_1", none)]⟩
    let f : Frame := ⟨some "echo_1", true, false, none, 0⟩
    listenStep ⟨aremove s.echo_callbacks "echo_1"⟩ f =
      (⟨aremove s.echo_callbacks "echo_1"⟩, ListenAction.unknownEchoDropped "echo_1") :=
  (claim_C6 ⟨[("echo_1", none)]⟩ "echo_1" ⟨some "echo_1", true, false, none, 0⟩
    (by simp [alookup]) rfl (Or.inl rfl)).2.2

end FastMute
